import Mathlib

/-!
Verification development for the mcp2210-rs driver (src/src/lib.rs).

The repository ships a single source file, `src/lib.rs`, holding the error
taxonomy (`Mcp2210Error`), the HID exchange (`Mcp2210::command_response`),
the open operations (`Mcp2210::open_path` and friends) and the SPI transfer
orchestrator (`Mcp2210::spi_transfer_to_end`).  The modules `cmds`, `types`
and `utils` it declares (the packet codec, `spi_transfer`, and
`SpiTransferStatus`) are not in the repository snapshot; the definitions
below that stand for them are modelled from the specification and say so in
their doc comments.

Machine integers (`u8`, `usize`) are embedded as `Nat`; byte buffers and
slices as `List Nat`; the mutable `Vec<u8>` output accumulator as an
explicit buffer value threaded through the recursion.  The transport
collaborator (one `spi_transfer` exchange per call) is embedded as an
oracle list consumed one entry per exchange, so the unbounded busy-poll
loop becomes structural recursion on the oracle; exhausting the oracle is
reported as the distinguished outcome `pending` (the Rust loop would still
be polling).
-/

namespace Mcp2210Rs

/-- Modelled from the spec: `SpiTransferStatus` lives in the missing module
`types`.  Per §3 of the spec it enumerates the chip-reported progress of a
chunked transfer: started, in-progress/continuing, finished.  (The busy
signal is a chip error code, `Mcp2210Error::Busy`, not a status — see
`src/lib.rs` line 192.) -/
inductive SpiTransferStatus where
  | Started
  | Continuing
  | Finished
deriving DecidableEq, Repr

/-- The error enumeration of `src/lib.rs` lines 19–40.  Foreign payload
types are embedded: `HidError` as a message string, `PathBuf` as the path
bytes, `NulError` as the offending byte position. -/
inductive Mcp2210Error where
  | Hid (msg : String)
  | NonUtf8Path (path : List Nat)
  | NulCharInPath (pos : Nat)
  | CommandCode (expected actual : Nat)
  | SubCommandCode (expected actual : Nat)
  | InvalidResponse (response : String)
  | UnknownErrorCode (code : Nat)
  | StringSize (size : Nat)
  | PayloadSize (size : Nat)
  | TransferStatus (status : SpiTransferStatus)
  | EepromWrite
  | AccessDenied
  | AccessRejected
  | AccessDeniedRetry
  | Unavailable
  | Busy
  | UnknownCommandCode (code : Nat)
deriving DecidableEq, Repr

/-- Modelled from the spec: the outcome of one `spi_transfer` exchange
(`spi_transfer` lives in the missing module `cmds`).  Per §4.1/§4.2 each
exchange yields a transfer status and the bytes received back on that
exchange, or fails with an `Mcp2210Error`. -/
structure SpiTransferResponse where
  status : SpiTransferStatus
  data : List Nat
deriving DecidableEq, Repr

deriving instance DecidableEq for Except

/-- One oracle entry: what the transport/codec returns for one exchange. -/
abbrev TransferOutcome := Except Mcp2210Error SpiTransferResponse

/-- Result of running the orchestrator against an oracle: the chunks it
passed to `spi_transfer`, in order; the final state of the caller's output
accumulator; and the outcome (`pending` means the oracle was exhausted
while the Rust loop would still be polling). -/
inductive RunOutcome where
  | pending
  | ok
  | error (e : Mcp2210Error)
deriving DecidableEq, Repr

structure RunState where
  sent : List (List Nat)
  bufFinal : List Nat
  outcome : RunOutcome
deriving DecidableEq, Repr

/-- The chunk loop of `Mcp2210::spi_transfer_to_end`, `src/lib.rs` lines
182–195: take the next ≤60-byte chunk, exchange it; on `Ok(res)` advance
the cursor, append `res.data` to the accumulator and stop when the status
is `Finished`; on `Err(Busy)` retry with the cursor and accumulator
untouched; on any other error return it.  The Rust `match` arm
`Err(Mcp2210Error::Busy)` is rendered as an equality test, which is
equivalent since `Busy` carries no payload. -/
def spiTransferLoop : List TransferOutcome → List Nat → List Nat → RunState
  | [], _, buf => ⟨[], buf, .pending⟩
  | r :: rest, data, buf =>
    let chunk := data.take (min data.length 60)
    match r with
    | .ok res =>
      if res.status = SpiTransferStatus.Finished then
        ⟨[chunk], buf ++ res.data, .ok⟩
      else
        let s := spiTransferLoop rest (data.drop (min data.length 60)) (buf ++ res.data)
        ⟨chunk :: s.sent, s.bufFinal, s.outcome⟩
    | .error e =>
      if e = Mcp2210Error.Busy then
        let s := spiTransferLoop rest data buf
        ⟨chunk :: s.sent, s.bufFinal, s.outcome⟩
      else ⟨[chunk], buf, .error e⟩

/-- `Mcp2210::spi_transfer_to_end`, `src/lib.rs` lines 168–197: the first
exchange sends the first ≤60-byte chunk and its response status must be
`Started` (its data is not appended); any `Err` of the first exchange is
propagated by `?`.  Then the chunk loop runs. -/
def spi_transfer_to_end (oracle : List TransferOutcome) (data buf : List Nat) : RunState :=
  match oracle with
  | [] => ⟨[], buf, .pending⟩
  | r :: rest =>
    let chunk := data.take (min data.length 60)
    match r with
    | .ok res =>
      if res.status = SpiTransferStatus.Started then
        let s := spiTransferLoop rest (data.drop (min data.length 60)) buf
        ⟨chunk :: s.sent, s.bufFinal, s.outcome⟩
      else ⟨[chunk], buf, .error (.TransferStatus res.status)⟩
    | .error e => ⟨[chunk], buf, .error e⟩

/-- Bytes received on one exchange: the data field of an `Ok` response,
nothing for an error. -/
def okData : TransferOutcome → List Nat
  | .ok res => res.data
  | .error _ => []

/-- Concatenation of the bytes received across a sequence of exchanges. -/
def concatOkData : List TransferOutcome → List Nat
  | [] => []
  | r :: rest => okData r ++ concatOkData rest

/-! ### Packet codec (response-header validation and field encoders)

The codec modules `cmds`/`utils` are not in the snapshot; the definitions
below are modelled from the spec (§4.1, §6). -/

/-- Modelled from the spec: translation of the response's designated
status/error byte (byte 1), performed by the missing `utils` module.  Per
§6 the chip's error codes are the closed set
{0xF7 unavailable, 0xF8 busy, 0xF9 unknown command, 0xFA EEPROM write
failure, 0xFB access denied, 0xFC access rejected, 0xFD access denied but
retryable}; per §3 byte 1 carries an error code only when a chip error
occurred — the chip signals success with status byte 0x00, in which case
decoding proceeds and returns a value.  Any other byte fails with
`UnknownErrorCode` carrying the raw byte.  The 0xF9 condition carries the
echoed command code. -/
def decodeErrorByte (cmdCode : Nat) (b : Nat) : Except Mcp2210Error Unit :=
  if b = 0x00 then .ok ()
  else if b = 0xF7 then .error .Unavailable
  else if b = 0xF8 then .error .Busy
  else if b = 0xF9 then .error (.UnknownCommandCode cmdCode)
  else if b = 0xFA then .error .EepromWrite
  else if b = 0xFB then .error .AccessDenied
  else if b = 0xFC then .error .AccessRejected
  else if b = 0xFD then .error .AccessDeniedRetry
  else .error (.UnknownErrorCode b)

/-- Modelled from the spec: the shared response-header validation of the
missing `utils` module.  Decoding first checks the command-code byte
(byte 0 of the response) against the code of the command that was sent;
a mismatch fails with `CommandCode{expected, actual}`.  Only then is the
status/error byte (byte 1) translated. -/
def check_response (cmd res : List Nat) : Except Mcp2210Error Unit :=
  let c0 := cmd.headD 0
  let r0 := res.headD 0
  if r0 = c0 then decodeErrorByte c0 (res.getD 1 0)
  else .error (.CommandCode c0 r0)

/-- Modelled from the spec: where a command family has a sub-command code,
the same check applies to the echoed sub-command byte and a mismatch fails
with `SubCommandCode{expected, actual}`. -/
def check_sub_command_code (expected actual : Nat) : Except Mcp2210Error Unit :=
  if actual = expected then .ok () else .error (.SubCommandCode expected actual)

/-- UTF-16LE serialization of a list of code units (single bytes, low byte
first). -/
def utf16leBytes : List Nat → List Nat
  | [] => []
  | u :: rest => u % 256 :: (u / 256) % 256 :: utf16leBytes rest

/-- Modelled from the spec: string-field encoding of the missing `cmds`
module.  It validates the length (at most 29 UTF-16 code units) before
packing and fails with `StringSize` carrying the offending length instead
of truncating; it performs no I/O. -/
def encode_string_field (units : List Nat) : Except Mcp2210Error (List Nat) :=
  if units.length ≤ 29 then .ok (utf16leBytes units)
  else .error (.StringSize units.length)

/-- Modelled from the spec: generic SPI payload encoding of the missing
`cmds` module.  A payload longer than 60 bytes fails with `PayloadSize`
carrying the offending length, before any transport activity. -/
def encode_spi_payload (data : List Nat) : Except Mcp2210Error (List Nat) :=
  if data.length ≤ 60 then .ok data
  else .error (.PayloadSize data.length)

/-! ### The HID exchange `Mcp2210::command_response` -/

/-- Model of the `hidapi::HidDevice` transport for one exchange: the byte
count it reports for a given write, the byte count it reports for the
read, and the response bytes it delivers. -/
structure HidDevice where
  writeCount : List Nat → Nat
  readCount : Nat
  response : List Nat

/-- Outcome of one `command_response` call: the response buffer, or a fired
`assert_eq!`. -/
inductive ExchangeOutcome where
  | ok (res : List Nat)
  | assertionFailed
deriving DecidableEq, Repr

structure ExchangeTrace where
  written : List Nat
  outcome : ExchangeOutcome
deriving Repr

/-- `Mcp2210::command_response`, `src/lib.rs` lines 103–113: build
`data_to_write` as a single 0x00 report-id byte followed by the command
buffer, assert the write wrote exactly `data_to_write.len()` bytes and the
read returned exactly `BUFFER_SIZE` (64) bytes. -/
def command_response (dev : HidDevice) (cmd : List Nat) : ExchangeTrace :=
  let data_to_write := [0x00] ++ cmd
  ⟨data_to_write,
    if dev.writeCount data_to_write = data_to_write.length then
      if dev.readCount = 64 then .ok dev.response
      else .assertionFailed
    else .assertionFailed⟩

/-! ### `Mcp2210::open_path` -/

/-- Continuation-byte test for UTF-8 (0x80–0xBF). -/
def isCont (b : Nat) : Bool := 0x80 ≤ b && b ≤ 0xBF

/-- Validity of a byte sequence as UTF-8, mirroring `Path::to_str`
(on unix a `Path` is raw bytes and `to_str` succeeds exactly on valid
UTF-8, rejecting overlong forms, surrogates and values above U+10FFFF). -/
def isValidUtf8 : List Nat → Bool
  | [] => true
  | b :: rest =>
    if b ≤ 0x7F then isValidUtf8 rest
    else if 0xC2 ≤ b && b ≤ 0xDF then
      match rest with
      | c1 :: rest1 => isCont c1 && isValidUtf8 rest1
      | [] => false
    else if b = 0xE0 then
      match rest with
      | c1 :: c2 :: rest2 =>
        (0xA0 ≤ c1 && c1 ≤ 0xBF) && (isCont c2 && isValidUtf8 rest2)
      | _ => false
    else if (0xE1 ≤ b && b ≤ 0xEC) || (0xEE ≤ b && b ≤ 0xEF) then
      match rest with
      | c1 :: c2 :: rest2 => isCont c1 && (isCont c2 && isValidUtf8 rest2)
      | _ => false
    else if b = 0xED then
      match rest with
      | c1 :: c2 :: rest2 =>
        (0x80 ≤ c1 && c1 ≤ 0x9F) && (isCont c2 && isValidUtf8 rest2)
      | _ => false
    else if b = 0xF0 then
      match rest with
      | c1 :: c2 :: c3 :: rest3 =>
        (0x90 ≤ c1 && c1 ≤ 0xBF) && (isCont c2 && (isCont c3 && isValidUtf8 rest3))
      | _ => false
    else if 0xF1 ≤ b && b ≤ 0xF3 then
      match rest with
      | c1 :: c2 :: c3 :: rest3 =>
        isCont c1 && (isCont c2 && (isCont c3 && isValidUtf8 rest3))
      | _ => false
    else if b = 0xF4 then
      match rest with
      | c1 :: c2 :: c3 :: rest3 =>
        (0x80 ≤ c1 && c1 ≤ 0x8F) && (isCont c2 && (isCont c3 && isValidUtf8 rest3))
      | _ => false
    else false

/-- Result of `open_path`: the typed result and whether any transport step
(`HidApi::new` / `context.open_path`) was reached. -/
structure OpenTrace where
  result : Except Mcp2210Error Unit
  transportCalled : Bool
deriving DecidableEq, Repr

/-- `Mcp2210::open_path`, `src/lib.rs` lines 123–135: first
`path.to_str()` (fails with `NonUtf8Path` on invalid UTF-8), then
`CString::new` (fails with `NulCharInPath` at the position of the first
interior nul byte), and only then `HidApi::new` and `context.open_path`.
The transport steps are abstracted by `hidOpenOk`; `transportCalled`
records whether they were reached. -/
def open_path (hidOpenOk : Bool) (path : List Nat) : OpenTrace :=
  if isValidUtf8 path then
    match path.findIdx? (· = 0) with
    | some pos => ⟨.error (.NulCharInPath pos), false⟩
    | none =>
      if hidOpenOk then ⟨.ok (), true⟩
      else ⟨.error (.Hid "open failed"), true⟩
  else ⟨.error (.NonUtf8Path path), false⟩

/-! ### Concrete scenario data: the 150-byte transfer with one busy retry -/

/-- A 150-byte input buffer. -/
def data150 : List Nat := List.range 150

/-- Oracle for the scenario of spec §8: the first exchange starts the
transfer; the second returns 60 received bytes; the third exchange (the
3rd packet) reports busy exactly once; its retry returns 60 bytes; the
final drain exchange finishes with the last 30 bytes. -/
def oracle150 : List TransferOutcome :=
  [ .ok ⟨.Started, []⟩,
    .ok ⟨.Continuing, List.replicate 60 1⟩,
    .error .Busy,
    .ok ⟨.Continuing, List.replicate 60 2⟩,
    .ok ⟨.Finished, List.replicate 30 3⟩ ]

/-- The scenario run, starting from an empty accumulator. -/
def run150 : RunState := spi_transfer_to_end oracle150 data150 []

/-- A transport model honoring single-report framing: every write is
reported complete and the read returns the 64-byte report. -/
def framingDev : HidDevice :=
  ⟨fun l => l.length, 64, List.replicate 64 0⟩

/-- A 64-byte command buffer. -/
def cmd64 : List Nat := List.replicate 64 7

/-- An oracle that starts and then finishes a transfer in one loop
exchange, echoing 61 bytes. -/
def oracle61 : List TransferOutcome :=
  [.ok ⟨.Started, []⟩, .ok ⟨.Finished, List.replicate 61 0⟩]

/-! ### Step characterizations of the orchestrator -/

theorem chunk_length_le (data : List Nat) : (data.take (min data.length 60)).length ≤ 60 := by
  simp [List.length_take]

theorem loop_nil (data buf : List Nat) :
    spiTransferLoop [] data buf = ⟨[], buf, .pending⟩ := rfl

theorem loop_ok_finished (res : SpiTransferResponse) (rest : List TransferOutcome)
    (data buf : List Nat) (h : res.status = SpiTransferStatus.Finished) :
    spiTransferLoop (.ok res :: rest) data buf =
      ⟨[data.take (min data.length 60)], buf ++ res.data, .ok⟩ := by
  simp [spiTransferLoop, h]

theorem loop_ok_going (res : SpiTransferResponse) (rest : List TransferOutcome)
    (data buf : List Nat) (h : res.status ≠ SpiTransferStatus.Finished) :
    spiTransferLoop (.ok res :: rest) data buf =
      ⟨data.take (min data.length 60) ::
          (spiTransferLoop rest (data.drop (min data.length 60)) (buf ++ res.data)).sent,
        (spiTransferLoop rest (data.drop (min data.length 60)) (buf ++ res.data)).bufFinal,
        (spiTransferLoop rest (data.drop (min data.length 60)) (buf ++ res.data)).outcome⟩ := by
  simp [spiTransferLoop, h]

theorem loop_busy (rest : List TransferOutcome) (data buf : List Nat) :
    spiTransferLoop (.error Mcp2210Error.Busy :: rest) data buf =
      ⟨data.take (min data.length 60) :: (spiTransferLoop rest data buf).sent,
        (spiTransferLoop rest data buf).bufFinal,
        (spiTransferLoop rest data buf).outcome⟩ := by
  simp [spiTransferLoop]

theorem loop_other_error (e : Mcp2210Error) (rest : List TransferOutcome)
    (data buf : List Nat) (h : e ≠ Mcp2210Error.Busy) :
    spiTransferLoop (.error e :: rest) data buf =
      ⟨[data.take (min data.length 60)], buf, .error e⟩ := by
  simp [spiTransferLoop, h]

theorem top_nil (data buf : List Nat) :
    spi_transfer_to_end [] data buf = ⟨[], buf, .pending⟩ := rfl

theorem top_ok_started (res : SpiTransferResponse) (rest : List TransferOutcome)
    (data buf : List Nat) (h : res.status = SpiTransferStatus.Started) :
    spi_transfer_to_end (.ok res :: rest) data buf =
      ⟨data.take (min data.length 60) ::
          (spiTransferLoop rest (data.drop (min data.length 60)) buf).sent,
        (spiTransferLoop rest (data.drop (min data.length 60)) buf).bufFinal,
        (spiTransferLoop rest (data.drop (min data.length 60)) buf).outcome⟩ := by
  simp [spi_transfer_to_end, h]

theorem top_ok_not_started (res : SpiTransferResponse) (rest : List TransferOutcome)
    (data buf : List Nat) (h : res.status ≠ SpiTransferStatus.Started) :
    spi_transfer_to_end (.ok res :: rest) data buf =
      ⟨[data.take (min data.length 60)], buf, .error (.TransferStatus res.status)⟩ := by
  simp [spi_transfer_to_end, h]

theorem top_first_error (e : Mcp2210Error) (rest : List TransferOutcome)
    (data buf : List Nat) :
    spi_transfer_to_end (.error e :: rest) data buf =
      ⟨[data.take (min data.length 60)], buf, .error e⟩ := by
  simp [spi_transfer_to_end]

/-! ### Invariants of the chunk loop -/

theorem getLast?_cons_of_ne_nil {α : Type} (a : α) {l : List α} (h : l ≠ []) :
    (a :: l).getLast? = l.getLast? := by
  cases l with
  | nil => exact absurd rfl h
  | cons b bs => rw [List.getLast?_cons_cons]

theorem spiTransferLoop_chunks_le (oracle : List TransferOutcome) :
    ∀ data buf c, c ∈ (spiTransferLoop oracle data buf).sent → c.length ≤ 60 := by
  induction oracle with
  | nil =>
    intro data buf c hc
    rw [loop_nil] at hc
    simp at hc
  | cons r rest ih =>
    intro data buf c hc
    cases r with
    | ok res =>
      by_cases hs : res.status = SpiTransferStatus.Finished
      · rw [loop_ok_finished res rest data buf hs] at hc
        simp at hc
        subst hc
        exact chunk_length_le data
      · rw [loop_ok_going res rest data buf hs] at hc
        simp at hc
        rcases hc with hc | hc
        · subst hc
          exact chunk_length_le data
        · exact ih _ _ _ hc
    | error e =>
      by_cases he : e = Mcp2210Error.Busy
      · subst he
        rw [loop_busy] at hc
        simp at hc
        rcases hc with hc | hc
        · subst hc
          exact chunk_length_le data
        · exact ih _ _ _ hc
      · rw [loop_other_error e rest data buf he] at hc
        simp at hc
        subst hc
        exact chunk_length_le data

theorem spiTransferLoop_bufFinal_eq (oracle : List TransferOutcome) :
    ∀ data buf, (spiTransferLoop oracle data buf).bufFinal =
      buf ++ concatOkData (oracle.take (spiTransferLoop oracle data buf).sent.length) := by
  induction oracle with
  | nil =>
    intro data buf
    rw [loop_nil]
    simp [concatOkData]
  | cons r rest ih =>
    intro data buf
    cases r with
    | ok res =>
      by_cases hs : res.status = SpiTransferStatus.Finished
      · rw [loop_ok_finished res rest data buf hs]
        simp [concatOkData, okData]
      · rw [loop_ok_going res rest data buf hs]
        simp only [List.length_cons, List.take_succ_cons, concatOkData, okData]
        rw [ih]
        simp [List.append_assoc]
    | error e =>
      by_cases he : e = Mcp2210Error.Busy
      · subst he
        rw [loop_busy]
        simp only [List.length_cons, List.take_succ_cons, concatOkData, okData]
        rw [ih]
        simp
      · rw [loop_other_error e rest data buf he]
        simp [concatOkData, okData]

theorem spiTransferLoop_ok_last (oracle : List TransferOutcome) :
    ∀ data buf, (spiTransferLoop oracle data buf).outcome = .ok →
      ∃ res : SpiTransferResponse,
        (oracle.take (spiTransferLoop oracle data buf).sent.length).getLast? =
          some (Except.ok res) ∧ res.status = SpiTransferStatus.Finished := by
  induction oracle with
  | nil =>
    intro data buf h
    rw [loop_nil] at h
    simp at h
  | cons r rest ih =>
    intro data buf h
    cases r with
    | ok res =>
      by_cases hs : res.status = SpiTransferStatus.Finished
      · refine ⟨res, ?_, hs⟩
        rw [loop_ok_finished res rest data buf hs]
        simp
      · rw [loop_ok_going res rest data buf hs] at h ⊢
        obtain ⟨res2, hlast, hfin⟩ := ih _ _ h
        refine ⟨res2, ?_, hfin⟩
        simp only [List.length_cons, List.take_succ_cons]
        have hne : rest.take (spiTransferLoop rest (data.drop (min data.length 60))
            (buf ++ res.data)).sent.length ≠ [] := by
          intro hnil
          rw [hnil] at hlast
          simp at hlast
        rw [getLast?_cons_of_ne_nil _ hne]
        exact hlast
    | error e =>
      by_cases he : e = Mcp2210Error.Busy
      · subst he
        rw [loop_busy] at h ⊢
        obtain ⟨res2, hlast, hfin⟩ := ih _ _ h
        refine ⟨res2, ?_, hfin⟩
        simp only [List.length_cons, List.take_succ_cons]
        have hne : rest.take (spiTransferLoop rest data buf).sent.length ≠ [] := by
          intro hnil
          rw [hnil] at hlast
          simp at hlast
        rw [getLast?_cons_of_ne_nil _ hne]
        exact hlast
      · rw [loop_other_error e rest data buf he] at h
        simp at h

theorem spiTransferLoop_replicate_busy (n : Nat) :
    ∀ data buf,
      spiTransferLoop (List.replicate n (Except.error Mcp2210Error.Busy)) data buf =
        ⟨List.replicate n (data.take (min data.length 60)), buf, .pending⟩ := by
  induction n with
  | zero =>
    intro data buf
    rw [List.replicate_zero, loop_nil, List.replicate_zero]
  | succ n ih =>
    intro data buf
    rw [List.replicate_succ, loop_busy, ih]
    rw [show List.replicate (n + 1) (data.take (min data.length 60)) =
      data.take (min data.length 60) :: List.replicate n (data.take (min data.length 60))
      from List.replicate_succ ..]

theorem loop_ok_sent_pos (oracle : List TransferOutcome) (data buf : List Nat)
    (h : (spiTransferLoop oracle data buf).outcome = .ok) :
    1 ≤ (spiTransferLoop oracle data buf).sent.length := by
  cases oracle with
  | nil =>
    rw [loop_nil] at h
    simp at h
  | cons r rest =>
    cases r with
    | ok res =>
      by_cases hs : res.status = SpiTransferStatus.Finished
      · rw [loop_ok_finished res rest data buf hs]
        simp
      · rw [loop_ok_going res rest data buf hs]
        simp
    | error e =>
      by_cases he : e = Mcp2210Error.Busy
      · subst he
        rw [loop_busy]
        simp
      · rw [loop_other_error e rest data buf he]
        simp

/-! ### Invariants of the whole call -/

theorem top_chunks_le (oracle : List TransferOutcome) (data buf : List Nat) :
    ∀ c ∈ (spi_transfer_to_end oracle data buf).sent, c.length ≤ 60 := by
  cases oracle with
  | nil =>
    intro c hc
    rw [top_nil] at hc
    simp at hc
  | cons r rest =>
    intro c hc
    cases r with
    | ok res =>
      by_cases hs : res.status = SpiTransferStatus.Started
      · rw [top_ok_started res rest data buf hs] at hc
        simp at hc
        rcases hc with hc | hc
        · subst hc
          exact chunk_length_le data
        · exact spiTransferLoop_chunks_le rest _ _ c hc
      · rw [top_ok_not_started res rest data buf hs] at hc
        simp at hc
        subst hc
        exact chunk_length_le data
    | error e =>
      rw [top_first_error] at hc
      simp at hc
      subst hc
      exact chunk_length_le data

theorem top_bufFinal_eq (oracle : List TransferOutcome) (data buf : List Nat) :
    (spi_transfer_to_end oracle data buf).bufFinal =
      buf ++ concatOkData ((oracle.drop 1).take
        ((spi_transfer_to_end oracle data buf).sent.length - 1)) := by
  cases oracle with
  | nil =>
    rw [top_nil]
    simp [concatOkData]
  | cons r rest =>
    cases r with
    | ok res =>
      by_cases hs : res.status = SpiTransferStatus.Started
      · rw [top_ok_started res rest data buf hs]
        simp only [List.length_cons, Nat.add_sub_cancel, List.drop_one, List.tail_cons]
        exact spiTransferLoop_bufFinal_eq rest _ buf
      · rw [top_ok_not_started res rest data buf hs]
        simp [concatOkData]
    | error e =>
      rw [top_first_error]
      simp [concatOkData]

theorem top_sent_head (r : TransferOutcome) (rest : List TransferOutcome)
    (data buf : List Nat) :
    (spi_transfer_to_end (r :: rest) data buf).sent.head? =
      some (data.take (min data.length 60)) := by
  cases r with
  | ok res =>
    by_cases hs : res.status = SpiTransferStatus.Started
    · rw [top_ok_started res rest data buf hs]
      rfl
    · rw [top_ok_not_started res rest data buf hs]
      rfl
  | error e =>
    rw [top_first_error]
    rfl

theorem top_ok_sent_two (oracle : List TransferOutcome) (data buf : List Nat)
    (h : (spi_transfer_to_end oracle data buf).outcome = .ok) :
    2 ≤ (spi_transfer_to_end oracle data buf).sent.length := by
  cases oracle with
  | nil =>
    rw [top_nil] at h
    simp at h
  | cons r rest =>
    cases r with
    | ok res =>
      by_cases hs : res.status = SpiTransferStatus.Started
      · rw [top_ok_started res rest data buf hs] at h ⊢
        have hp := loop_ok_sent_pos rest (data.drop (min data.length 60)) buf h
        simp only [List.length_cons]
        omega
      · rw [top_ok_not_started res rest data buf hs] at h
        simp at h
    | error e =>
      rw [top_first_error] at h
      simp at h

theorem top_ok_last (oracle : List TransferOutcome) (data buf : List Nat)
    (h : (spi_transfer_to_end oracle data buf).outcome = .ok) :
    ∃ res : SpiTransferResponse,
      ((oracle.drop 1).take ((spi_transfer_to_end oracle data buf).sent.length - 1)).getLast? =
        some (Except.ok res) ∧ res.status = SpiTransferStatus.Finished := by
  cases oracle with
  | nil =>
    rw [top_nil] at h
    simp at h
  | cons r rest =>
    cases r with
    | ok res =>
      by_cases hs : res.status = SpiTransferStatus.Started
      · rw [top_ok_started res rest data buf hs] at h ⊢
        simp only [List.length_cons, Nat.add_sub_cancel, List.drop_one, List.tail_cons]
        exact spiTransferLoop_ok_last rest _ buf h
      · rw [top_ok_not_started res rest data buf hs] at h
        simp at h
    | error e =>
      rw [top_first_error] at h
      simp at h

theorem command_response_written (dev : HidDevice) (cmd : List Nat) :
    (command_response dev cmd).written = 0x00 :: cmd := rfl

/-! ### Claim theorems -/

set_option maxRecDepth 8000 in
/-- Claim C1: `spi_transfer_to_end` splits every input buffer into
order-preserving chunks of at most 60 bytes — a buffer of at most 60 bytes
is attempted whole as the first packet, a 61-byte buffer needs at least
two packets — and the bytes appended to the caller-supplied accumulator
are exactly the concatenation of the bytes received across the loop
exchanges; in the 150-byte scenario where the transport reports busy
exactly once for the 3rd packet, that chunk is exchanged exactly twice
(one extra exchange), the final output length is 150 and the call
succeeds. -/
theorem claim_spi_transfer_chunking :
    (∀ (oracle : List TransferOutcome) (data buf : List Nat),
        ∀ c ∈ (spi_transfer_to_end oracle data buf).sent, c.length ≤ 60) ∧
    (∀ (oracle : List TransferOutcome) (data buf : List Nat),
        (spi_transfer_to_end oracle data buf).bufFinal =
          buf ++ concatOkData ((oracle.drop 1).take
            ((spi_transfer_to_end oracle data buf).sent.length - 1))) ∧
    (∀ (oracle : List TransferOutcome) (data buf : List Nat),
        data.length ≤ 60 → oracle ≠ [] →
        (spi_transfer_to_end oracle data buf).sent.head? = some data) ∧
    (∀ (oracle : List TransferOutcome) (data buf : List Nat),
        data.length = 61 →
        (spi_transfer_to_end oracle data buf).outcome = .ok →
        2 ≤ (spi_transfer_to_end oracle data buf).sent.length) ∧
    (run150.outcome = .ok ∧ run150.bufFinal.length = 150 ∧
      run150.sent = [data150.take 60, (data150.drop 60).take 60,
        data150.drop 120, data150.drop 120, []] ∧
      run150.sent.count (data150.drop 120) = 2) := by
  refine ⟨top_chunks_le, top_bufFinal_eq, ?_, ?_, ?_⟩
  · intro oracle data buf hlen hne
    cases oracle with
    | nil => exact absurd rfl hne
    | cons r rest =>
      have h := top_sent_head r rest data buf
      rwa [min_eq_left hlen, List.take_length] at h
  · intro oracle data buf _ hok
    exact top_ok_sent_two oracle data buf hok
  · exact ⟨by decide, by decide, by decide, by decide⟩

set_option maxRecDepth 8000 in
theorem claim_spi_transfer_chunking_witness :
    (spi_transfer_to_end oracle150 (List.range 10) []).sent.head? =
        some (List.range 10) ∧
    2 ≤ (spi_transfer_to_end oracle61 (List.range 61) []).sent.length ∧
    (data150.take 60).length ≤ 60 :=
  ⟨claim_spi_transfer_chunking.2.2.1 oracle150 (List.range 10) [] (by decide) (by decide),
   claim_spi_transfer_chunking.2.2.2.1 oracle61 (List.range 61) [] (by decide) (by decide),
   claim_spi_transfer_chunking.1 oracle150 data150 [] (data150.take 60) (by decide)⟩

/-- Claim C2: inside the chunk loop, an exchange failing with any error
other than `Busy` makes the call return that error immediately — exactly
one more chunk is exchanged, and the accumulator state at the error return
is the buffer as it stood, so bytes appended by prior successful exchanges
are not rolled back (for every run the final accumulator extends the
caller's buffer). -/
theorem claim_loop_error_immediate :
    (∀ (e : Mcp2210Error) (rest : List TransferOutcome) (data buf : List Nat),
        e ≠ Mcp2210Error.Busy →
        spiTransferLoop (.error e :: rest) data buf =
          ⟨[data.take (min data.length 60)], buf, .error e⟩) ∧
    (∀ (oracle : List TransferOutcome) (data buf : List Nat),
        ∃ t, (spi_transfer_to_end oracle data buf).bufFinal = buf ++ t) :=
  ⟨loop_other_error,
   fun oracle data buf => ⟨_, top_bufFinal_eq oracle data buf⟩⟩

theorem claim_loop_error_immediate_witness :
    spiTransferLoop
        [Except.error (Mcp2210Error.TransferStatus SpiTransferStatus.Continuing)]
        [1, 2, 3] [9, 9] =
      ⟨[[1, 2, 3]], [9, 9],
        .error (Mcp2210Error.TransferStatus SpiTransferStatus.Continuing)⟩ :=
  claim_loop_error_immediate.1
    (Mcp2210Error.TransferStatus SpiTransferStatus.Continuing)
    [] [1, 2, 3] [9, 9] (by decide)

/-- Claim C3: if the first exchange's response status is not `Started`,
the call fails at once with `TransferStatus` carrying that status and only
that one exchange happens; a first exchange reporting busy (`Err(Busy)`)
likewise fails at once with `Busy` — the failed start is never retried. -/
theorem claim_failed_start :
    (∀ (res : SpiTransferResponse) (rest : List TransferOutcome) (data buf : List Nat),
        res.status ≠ SpiTransferStatus.Started →
        spi_transfer_to_end (.ok res :: rest) data buf =
          ⟨[data.take (min data.length 60)], buf,
            .error (.TransferStatus res.status)⟩) ∧
    (∀ (rest : List TransferOutcome) (data buf : List Nat),
        spi_transfer_to_end (.error Mcp2210Error.Busy :: rest) data buf =
          ⟨[data.take (min data.length 60)], buf, .error Mcp2210Error.Busy⟩) :=
  ⟨top_ok_not_started, fun rest data buf => top_first_error _ rest data buf⟩

theorem claim_failed_start_witness :
    spi_transfer_to_end [Except.ok ⟨SpiTransferStatus.Finished, [4]⟩] [1, 2] [] =
      ⟨[[1, 2]], [],
        .error (Mcp2210Error.TransferStatus SpiTransferStatus.Finished)⟩ :=
  claim_failed_start.1 ⟨SpiTransferStatus.Finished, [4]⟩ [] [1, 2] [] (by decide)

/-- Claim C4: in the chunk loop a `Busy` chip error is swallowed — the
oracle entry is consumed but the loop recurses with the very same cursor
and accumulator, so the same chunk is resent and nothing is appended; the
retry is unbounded (an oracle of n busy answers yields n identical resends
and the loop is still polling); a `Finished` response and any non-busy
error are terminal (exactly one more exchange happens), and a successful
run terminates only on a `Finished` response: the last loop exchange
consumed is an `Ok` whose status is `Finished`. -/
theorem claim_busy_retry_state_machine :
    (∀ (rest : List TransferOutcome) (data buf : List Nat),
        spiTransferLoop (.error Mcp2210Error.Busy :: rest) data buf =
          ⟨data.take (min data.length 60) :: (spiTransferLoop rest data buf).sent,
            (spiTransferLoop rest data buf).bufFinal,
            (spiTransferLoop rest data buf).outcome⟩) ∧
    (∀ (n : Nat) (data buf : List Nat),
        spiTransferLoop (List.replicate n (Except.error Mcp2210Error.Busy)) data buf =
          ⟨List.replicate n (data.take (min data.length 60)), buf, .pending⟩) ∧
    (∀ (res : SpiTransferResponse) (rest : List TransferOutcome) (data buf : List Nat),
        res.status = SpiTransferStatus.Finished →
        spiTransferLoop (.ok res :: rest) data buf =
          ⟨[data.take (min data.length 60)], buf ++ res.data, .ok⟩) ∧
    (∀ (e : Mcp2210Error) (rest : List TransferOutcome) (data buf : List Nat),
        e ≠ Mcp2210Error.Busy →
        (spiTransferLoop (.error e :: rest) data buf).sent.length = 1 ∧
        (spiTransferLoop (.error e :: rest) data buf).outcome = .error e) ∧
    (∀ (oracle : List TransferOutcome) (data buf : List Nat),
        (spi_transfer_to_end oracle data buf).outcome = .ok →
        ∃ res : SpiTransferResponse,
          ((oracle.drop 1).take
              ((spi_transfer_to_end oracle data buf).sent.length - 1)).getLast? =
            some (Except.ok res) ∧ res.status = SpiTransferStatus.Finished) := by
  refine ⟨loop_busy, spiTransferLoop_replicate_busy, loop_ok_finished, ?_, top_ok_last⟩
  intro e rest data buf h
  rw [loop_other_error e rest data buf h]
  exact ⟨rfl, rfl⟩

set_option maxRecDepth 8000 in
theorem claim_busy_retry_state_machine_witness :
    spiTransferLoop [Except.ok ⟨SpiTransferStatus.Finished, [7]⟩] [1, 2] [0] =
      ⟨[[1, 2]], [0, 7], .ok⟩ ∧
    ((spiTransferLoop [Except.error Mcp2210Error.AccessDenied] [] []).sent.length = 1 ∧
      (spiTransferLoop [Except.error Mcp2210Error.AccessDenied] [] []).outcome =
        .error Mcp2210Error.AccessDenied) ∧
    (∃ res : SpiTransferResponse,
      ((oracle150.drop 1).take
          ((spi_transfer_to_end oracle150 data150 []).sent.length - 1)).getLast? =
        some (Except.ok res) ∧ res.status = SpiTransferStatus.Finished) :=
  ⟨claim_busy_retry_state_machine.2.2.1 ⟨SpiTransferStatus.Finished, [7]⟩ [] [1, 2] [0] rfl,
   claim_busy_retry_state_machine.2.2.2.1 Mcp2210Error.AccessDenied [] [] [] (by decide),
   claim_busy_retry_state_machine.2.2.2.2 oracle150 data150 [] (by decide)⟩

/-- Claim C10: the data of the first exchange's response (the `Started`
one) is never appended — the final accumulator is the caller's buffer plus
exactly the bytes received on the loop exchanges (`oracle.drop 1`) — and
at least one exchange is performed even when the input buffer is empty, in
which case the first chunk sent is the empty chunk. -/
theorem claim_first_response_data_excluded :
    (∀ (oracle : List TransferOutcome) (data buf : List Nat),
        (spi_transfer_to_end oracle data buf).bufFinal =
          buf ++ concatOkData ((oracle.drop 1).take
            ((spi_transfer_to_end oracle data buf).sent.length - 1))) ∧
    (∀ (oracle : List TransferOutcome) (data buf : List Nat), oracle ≠ [] →
        1 ≤ (spi_transfer_to_end oracle data buf).sent.length) ∧
    (∀ (r : TransferOutcome) (rest : List TransferOutcome) (buf : List Nat),
        (spi_transfer_to_end (r :: rest) [] buf).sent.head? = some []) := by
  refine ⟨top_bufFinal_eq, ?_, ?_⟩
  · intro oracle data buf hne
    cases oracle with
    | nil => exact absurd rfl hne
    | cons r rest =>
      have h := top_sent_head r rest data buf
      cases hsent : (spi_transfer_to_end (r :: rest) data buf).sent with
      | nil => rw [hsent] at h; simp at h
      | cons c cs => simp
  · intro r rest buf
    exact top_sent_head r rest [] buf

set_option maxRecDepth 8000 in
theorem claim_first_response_data_excluded_witness :
    1 ≤ (spi_transfer_to_end oracle150 data150 []).sent.length :=
  claim_first_response_data_excluded.2.1 oracle150 data150 [] (by decide)

/-- Claim C5 counterexample: a response status/error byte of 0x00 lies
outside the seven defined chip error codes, yet decoding succeeds — it
does not fail with `UnknownErrorCode 0x00`, contradicting the claim's
universal quantification over every byte outside the closed set. -/
theorem claim_error_code_translation_cex :
    decodeErrorByte 0x10 0x00 ≠ Except.error (Mcp2210Error.UnknownErrorCode 0x00) ∧
    decodeErrorByte 0x10 0x00 = Except.ok () := by
  decide

/-- Claim C5 (amended): each of the seven defined chip error codes
{0xF7, 0xF8, 0xF9, 0xFA, 0xFB, 0xFC, 0xFD} maps to its named error
condition; every NONZERO error byte outside that closed set fails with
`UnknownErrorCode` carrying that exact byte; the byte 0x00 denotes success
and decoding proceeds. -/
theorem claim_error_code_translation :
    (∀ cmdCode : Nat,
      decodeErrorByte cmdCode 0xF7 = .error .Unavailable ∧
      decodeErrorByte cmdCode 0xF8 = .error .Busy ∧
      decodeErrorByte cmdCode 0xF9 = .error (.UnknownCommandCode cmdCode) ∧
      decodeErrorByte cmdCode 0xFA = .error .EepromWrite ∧
      decodeErrorByte cmdCode 0xFB = .error .AccessDenied ∧
      decodeErrorByte cmdCode 0xFC = .error .AccessRejected ∧
      decodeErrorByte cmdCode 0xFD = .error .AccessDeniedRetry) ∧
    (∀ cmdCode b : Nat, b ≠ 0x00 →
      b ∉ ([0xF7, 0xF8, 0xF9, 0xFA, 0xFB, 0xFC, 0xFD] : List Nat) →
      decodeErrorByte cmdCode b = .error (.UnknownErrorCode b)) ∧
    (∀ cmdCode : Nat, decodeErrorByte cmdCode 0x00 = .ok ()) := by
  refine ⟨?_, ?_, ?_⟩
  · intro cmdCode
    refine ⟨?_, ?_, ?_, ?_, ?_, ?_, ?_⟩ <;> simp [decodeErrorByte]
  · intro cmdCode b h0 hset
    simp only [List.mem_cons, List.not_mem_nil, or_false, not_or] at hset
    obtain ⟨h1, h2, h3, h4, h5, h6, h7⟩ := hset
    simp [decodeErrorByte, h0, h1, h2, h3, h4, h5, h6, h7]
  · intro cmdCode
    simp [decodeErrorByte]

theorem claim_error_code_translation_witness :
    decodeErrorByte 0x10 0x42 = .error (.UnknownErrorCode 0x42) :=
  claim_error_code_translation.2.1 0x10 0x42 (by decide) (by decide)

/-- Claim C6: response decoding checks byte 0 against the code of the
command that was sent before anything else; a mismatch fails with
`CommandCode{expected, actual}` carrying both bytes (in particular,
sending 0x10 and decoding byte 0 as 0x42 fails with
`CommandCode{expected := 0x10, actual := 0x42}`), and where a sub-command
code is expected the same check fails with `SubCommandCode{expected,
actual}` on mismatch. -/
theorem claim_header_checks :
    (∀ (c0 r0 : Nat) (cs rs : List Nat), r0 ≠ c0 →
        check_response (c0 :: cs) (r0 :: rs) =
          .error (.CommandCode c0 r0)) ∧
    (check_response (0x10 :: List.replicate 63 0) (0x42 :: List.replicate 63 0) =
        .error (.CommandCode 0x10 0x42)) ∧
    (∀ e a : Nat, a ≠ e →
        check_sub_command_code e a = .error (.SubCommandCode e a)) := by
  refine ⟨?_, by decide, ?_⟩
  · intro c0 r0 cs rs h
    simp [check_response, h]
  · intro e a h
    simp [check_sub_command_code, h]

theorem claim_header_checks_witness :
    check_response [0x10, 0x00] [0x42, 0x00] = .error (.CommandCode 0x10 0x42) ∧
    check_sub_command_code 0x20 0x21 = .error (.SubCommandCode 0x20 0x21) :=
  ⟨claim_header_checks.1 0x10 0x42 [0x00] [0x00] (by decide),
   claim_header_checks.2.2 0x20 0x21 (by decide)⟩

/-- Claim C7: string-field encoding validates length before packing —
every payload of at most 29 UTF-16 code units encodes successfully, and a
payload of 30 units fails with `StringSize 30` rather than truncating;
generic SPI payload encoding fails with `PayloadSize` carrying the length
for any payload longer than 60 bytes.  Both encoders are pure: the
violations are raised with no transport activity in their types. -/
theorem claim_size_validation :
    (∀ units : List Nat, units.length ≤ 29 →
        encode_string_field units = .ok (utf16leBytes units)) ∧
    (∀ units : List Nat, units.length = 30 →
        encode_string_field units = .error (.StringSize 30)) ∧
    (∀ data : List Nat, 60 < data.length →
        encode_spi_payload data = .error (.PayloadSize data.length)) := by
  refine ⟨?_, ?_, ?_⟩
  · intro units h
    simp [encode_string_field, h]
  · intro units h
    simp [encode_string_field, h]
  · intro data h
    simp only [encode_spi_payload]
    rw [if_neg (by omega)]

theorem claim_size_validation_witness :
    encode_string_field (List.replicate 29 65) =
        .ok (utf16leBytes (List.replicate 29 65)) ∧
    encode_string_field (List.replicate 30 65) = .error (.StringSize 30) ∧
    encode_spi_payload (List.replicate 61 0) = .error (.PayloadSize 61) :=
  ⟨claim_size_validation.1 (List.replicate 29 65) (by decide),
   claim_size_validation.2.1 (List.replicate 30 65) (by decide),
   claim_size_validation.2.2 (List.replicate 61 0) (by decide)⟩

/-- Claim C8: every `command_response` exchange writes exactly 65 bytes —
a single zero report-id byte followed by the 64-byte command buffer — and
reads exactly 64 bytes; under a transport that honors single-report
framing (reports the full write and a 64-byte read), the length
assertions never fire and the exchange returns the response buffer. -/
theorem claim_exchange_framing :
    (∀ (dev : HidDevice) (cmd : List Nat), cmd.length = 64 →
        (command_response dev cmd).written = 0x00 :: cmd ∧
        (command_response dev cmd).written.length = 65) ∧
    (∀ (dev : HidDevice) (cmd : List Nat),
        dev.writeCount (0x00 :: cmd) = cmd.length + 1 →
        dev.readCount = 64 →
        (command_response dev cmd).outcome = .ok dev.response) := by
  constructor
  · intro dev cmd hlen
    refine ⟨command_response_written dev cmd, ?_⟩
    rw [command_response_written dev cmd]
    simp [hlen]
  · intro dev cmd h1 h2
    simp [command_response, h1, h2]

theorem claim_exchange_framing_witness :
    (command_response framingDev cmd64).written.length = 65 ∧
    (command_response framingDev cmd64).outcome = .ok (List.replicate 64 0) :=
  ⟨(claim_exchange_framing.1 framingDev cmd64 (by decide)).2,
   claim_exchange_framing.2 framingDev cmd64 rfl rfl⟩

/-- Claim C9: `open_path` validates the path before any transport step —
a valid-UTF-8 path containing an embedded nul byte fails with
`NulCharInPath` (at the position of the first nul), and a path that is
not valid UTF-8 fails with `NonUtf8Path` carrying the path; in both cases
no HID context is created and no device I/O happens
(`transportCalled = false`). -/
theorem claim_open_path_validation :
    (∀ (hid : Bool) (path : List Nat) (pos : Nat),
        isValidUtf8 path = true → path.findIdx? (· = 0) = some pos →
        open_path hid path = ⟨.error (.NulCharInPath pos), false⟩) ∧
    (∀ (hid : Bool) (path : List Nat),
        isValidUtf8 path = false →
        open_path hid path = ⟨.error (.NonUtf8Path path), false⟩) := by
  constructor
  · intro hid path pos hutf hidx
    simp [open_path, hutf, hidx]
  · intro hid path hutf
    simp [open_path, hutf]

theorem claim_open_path_validation_witness :
    open_path true [0x61, 0x00, 0x62] =
        ⟨.error (.NulCharInPath 1), false⟩ ∧
    open_path true [0xFF] = ⟨.error (.NonUtf8Path [0xFF]), false⟩ :=
  ⟨claim_open_path_validation.1 true [0x61, 0x00, 0x62] 1 (by decide) (by decide),
   claim_open_path_validation.2 true [0xFF] (by decide)⟩

end Mcp2210Rs
